import Mathlib

/-!
Verification development for the Station-Manager/lookup repository.

The Go sources under verification are:
  * `hamnut/service.go`, `hamnut/internal.go` — the JSON (Hamnut) adapter,
  * the qrz adapter (`Service.Initialize`, `Service.Lookup`,
    `Service.LookupWithContext`, `Service.requestAndSetSessionKey`,
    `Service.unmarshalResponse`, `Service.validateConfig`) — the XML adapter,
  * `lookup` package (factory) and `hamnut.IsNetworkError`.

Pure computations (response classification, normalization, config
validation) are embedded as Lean functions; the stateful lifecycle
(`Initialize` with its `sync.Once` gate and `atomic.Bool` flag) is embedded
as explicit state-passing functions; the outbound HTTP request performed by
a lookup is represented by a `request` step carrying the continuation that
classifies the (externally supplied) HTTP reply.
-/

/-! ## Generic string helpers mirroring Go's `strings` package -/

/-- Checks that `sub` occurs at the head of `l` (helper for substring search). -/
def matchesAt : List Char → List Char → Bool
  | [], _ => true
  | _ :: _, [] => false
  | a :: as, b :: bs => a = b && matchesAt as bs

/-- Checks that `sub` occurs somewhere inside `l` (helper for substring search). -/
def hasSub (l sub : List Char) : Bool :=
  match l with
  | [] => matchesAt sub []
  | _ :: rest => matchesAt sub l || hasSub rest sub

/-- Mirrors Go `strings.Contains s sub`. -/
def goContains (s sub : String) : Bool :=
  hasSub s.data sub.data

/-- Mirrors the Go byte slice `s[len(s)-n:]` for ASCII strings. -/
def lastChars (n : Nat) (s : String) : String :=
  String.mk (s.data.drop (s.data.length - n))

/-- Drops whitespace from both ends of a character list. -/
def trimChars (l : List Char) : List Char :=
  ((l.dropWhile Char.isWhitespace).reverse.dropWhile Char.isWhitespace).reverse

/-- Mirrors Go `strings.TrimSpace` (for the ASCII whitespace the adapters
meet); defined over the character list so it evaluates by reduction. -/
def String.trimGo (s : String) : String :=
  String.mk (trimChars s.data)

/-- Mirrors Go `strings.ToUpper` for ASCII. -/
def String.toUpperGo (s : String) : String :=
  String.mk (s.data.map Char.toUpper)

/-- Mirrors Go `strings.ToLower` for ASCII. -/
def String.toLowerGo (s : String) : String :=
  String.mk (s.data.map Char.toLower)

/-! ## Error model

The repository's `errors` package builds errors from an operation name
(`errors.Op`), a message (`Msg`/`Errorf`), an optional wrapped cause
(`Err`), and the sentinel `errors.ErrNotFound`.  We model an error value by
its observable content: the operation, the message, whether
`errors.Is(err, errors.ErrNotFound)` holds (the sentinel survives
wrapping), and the list of messages of wrapped causes. -/

structure SMError where
  op : String
  msg : String
  nf : Bool
  carried : List String := []
deriving DecidableEq

/-- Mirrors wrapping an inner error with `errors.New(op).Err(inner).Msg(msg)`:
the not-found sentinel propagates through the chain and the inner message is
carried along. -/
def wrapErr (op msg : String) (inner : SMError) : SMError :=
  { op := op, msg := msg, nf := inner.nf, carried := inner.msg :: inner.carried }

/-! ## HTTP-exchange model

A Go `context.Context` passed to `LookupWithContext`; `nil` contexts are
`Option.none` at call sites. -/

inductive GoContext
  | background
  | custom (id : Nat)
deriving DecidableEq

/-- Outcome of reading and decoding a response body: `readErr` models an
`io.ReadAll` failure (with the partial bytes, which Go still uses in
non-2xx error messages), `malformed` a body that fails to decode, `ok` a
decoded value.  `raw` is the body text used for error excerpts. -/
inductive BodyOutcome (π : Type)
  | readErr (raw : String)
  | malformed (raw : String)
  | ok (raw : String) (p : π)
deriving DecidableEq

/-- Raw body text of an outcome (what `io.ReadAll` produced). -/
def BodyOutcome.rawOf : BodyOutcome π → String
  | .readErr r => r
  | .malformed r => r
  | .ok r _ => r

/-- Result of `client.Do(req)`: a transport failure or a reply with an HTTP
status and a body. -/
inductive HttpReply (π : Type)
  | transportFailure (msg : String)
  | reply (status : Nat) (body : BodyOutcome π)
deriving DecidableEq

/-- Result of running a lookup up to (and excluding) the outbound HTTP
request: `errStop` returns an error with no request made, `pass` returns a
value with nil error and no request made, `request` performs the outbound
GET under the given context and classifies its reply with the continuation,
`panicked` models a Go runtime panic. -/
inductive LookupStep (π α : Type)
  | errStop (e : SMError)
  | pass (v : α)
  | request (ctx : GoContext) (handle : HttpReply π → Except SMError α)
  | panicked (msg : String)

/-- Whether a lookup step performs an outbound HTTP request. -/
def LookupStep.isRequest : LookupStep π α → Bool
  | .request _ _ => true
  | _ => false

/-! ## Shared configuration (`types.LookupConfig` as used by the adapters)

The hamnut adapter validates `HttpTimeoutSec`, the qrz adapter validates
`HttpTimeout`; both fields of the shared struct are kept.  `pfx` in the
output record stands for the Go field `Prefix`. -/

structure LookupConfig where
  enabled : Bool
  url : String
  userAgent : String
  httpTimeoutSec : Int
  httpTimeout : Int
  username : String := ""
  password : String := ""
deriving DecidableEq

/-! ## URL parsing model

The adapters call `net/url.Parse` and use only whether it fails, plus the
`Scheme` and `Host` of the result.  Modelled from the spec: a faithful
fragment of Go's `net/url.Parse` — the control-character rejection and the
`missing protocol scheme` error from `getScheme`, plus scheme/authority
extraction; other failure modes of the Go parser (e.g. invalid ports) are
out of the adapters' exercised range and parse successfully here. -/

structure UrlParts where
  scheme : String
  host : String
deriving DecidableEq

/-- Control characters make Go's `url.Parse` fail. -/
def hasCtlChar (s : String) : Bool :=
  s.data.any (fun c => c.toNat < 32 || c.toNat == 127)

/-- Mirrors Go `net/url.getScheme`: `none` is the `missing protocol scheme`
error; otherwise returns the scheme (possibly empty) and the remainder. -/
def goGetSchemeAux (orig : List Char) : List Char → List Char → Option (List Char × List Char)
  | _, [] => some ([], orig)
  | acc, c :: rest =>
    if c.isAlpha then goGetSchemeAux orig (acc ++ [c]) rest
    else if c.isDigit || c = '+' || c = '-' || c = '.' then
      if acc.isEmpty then some ([], orig) else goGetSchemeAux orig (acc ++ [c]) rest
    else if c = ':' then
      if acc.isEmpty then none else some (acc, rest)
    else some ([], orig)

/-- Scheme split entry point. -/
def goGetScheme (l : List Char) : Option (List Char × List Char) :=
  goGetSchemeAux l [] l

/-- Authority (host) extraction: text after `//` up to `/`, `?` or `#`,
with any userinfo before `@` removed. -/
def authorityHost (rest : List Char) : List Char :=
  match rest with
  | '/' :: '/' :: r =>
    let auth := r.takeWhile (fun c => c ≠ '/' && c ≠ '?' && c ≠ '#')
    if auth.contains '@' then
      ((auth.reverse.takeWhile (fun c => c ≠ '@')).reverse)
    else auth
  | _ => []

/-- Model of `net/url.Parse` restricted to the observations the adapters
make (`err`, `u.Scheme`, `u.Host`). -/
def goUrlParse (s : String) : Option UrlParts :=
  if hasCtlChar s then none
  else
    match goGetScheme s.data with
    | none => none
    | some (sch, rest) =>
      some { scheme := String.mk sch, host := String.mk (authorityHost rest) }

/-- The check `err != nil || u.Scheme == "" || u.Host == ""` from
`validateConfig`. -/
def urlSchemeHostBad (s : String) : Bool :=
  match goUrlParse s with
  | none => true
  | some u => u.scheme = "" || u.host = ""

/-! ## RFC-3339 timestamp model

`hamnut.Service.unmarshalResponse` calls `time.Parse(time.RFC3339, ...)`
and uses only the zone offset of the result.  Modelled from Go's strict
RFC-3339 parser (`time.parseRFC3339`): fixed `YYYY-MM-DDThh:mm:ss` layout
with range checks, an optional `.digits` fraction, and a zone of `Z` or
`±hh:mm` with `hh ≤ 23`, `mm ≤ 59`.  The result is the zone offset in
seconds. -/

/-- Two decimal digits as a number. -/
def digit2 (a b : Char) : Option Nat :=
  if a.isDigit && b.isDigit then some ((a.toNat - 48) * 10 + (b.toNat - 48)) else none

/-- Four decimal digits as a number. -/
def digit4 (a b c d : Char) : Option Nat :=
  match digit2 a b, digit2 c d with
  | some hi, some lo => some (hi * 100 + lo)
  | _, _ => none

/-- Gregorian leap year test (as in Go's `time` package). -/
def isLeapYear (y : Nat) : Bool :=
  (y % 4 == 0 && y % 100 != 0) || y % 400 == 0

/-- Days in a month (as in Go's `time.daysIn`). -/
def daysIn (m y : Nat) : Nat :=
  if m == 2 then (if isLeapYear y then 29 else 28)
  else if m == 4 || m == 6 || m == 9 || m == 11 then 30
  else 31

/-- Skips an optional fractional-seconds part `.d…d`. -/
def skipFrac (l : List Char) : List Char :=
  match l with
  | '.' :: c :: rest => if c.isDigit then (c :: rest).dropWhile Char.isDigit else l
  | _ => l

/-- The `zoneOffset *= -1` sign application of Go's zone parsing. -/
def zoneSign (sg : Char) : Int :=
  if sg = '-' then -1 else 1

/-- Parses the zone remainder: `Z` or `±hh:mm`, giving the offset in
seconds. -/
def parseZone : List Char → Option Int
  | ['Z'] => some 0
  | [sg, z1, z2, col, z3, z4] =>
    if (sg = '+' || sg = '-') && col = ':' then
      match digit2 z1 z2, digit2 z3 z4 with
      | some hh, some mm =>
        if hh ≤ 23 && mm ≤ 59 then
          some (zoneSign sg * ((hh * 3600 + mm * 60 : Nat) : Int))
        else none
      | _, _ => none
    else none
  | _ => none

/-- Checks the date-time prefix `YYYY-MM-DDThh:mm:ss` (with range checks)
and returns the remainder after an optional fraction. -/
def checkDT (l : List Char) : Option (List Char) :=
  match l with
  | y1 :: y2 :: y3 :: y4 :: p1 :: mo1 :: mo2 :: p2 :: da1 :: da2 :: p3 ::
    h1 :: h2 :: p4 :: mi1 :: mi2 :: p5 :: se1 :: se2 :: rest =>
    match digit4 y1 y2 y3 y4, digit2 mo1 mo2, digit2 da1 da2,
          digit2 h1 h2, digit2 mi1 mi2, digit2 se1 se2 with
    | some yr, some mo, some dy, some hh, some mi, some sc =>
      if p1 = '-' && p2 = '-' && p3 = 'T' && p4 = ':' && p5 = ':' &&
         1 ≤ mo && mo ≤ 12 && 1 ≤ dy && dy ≤ daysIn mo yr &&
         hh ≤ 23 && mi ≤ 59 && sc ≤ 59 then
        some (skipFrac rest)
      else none
    | _, _, _, _, _, _ => none
  | _ => none

/-- Model of `time.Parse(time.RFC3339, s)` restricted to the observation
made by the adapter: success/failure, and the zone offset in seconds. -/
def goParseRFC3339 (s : String) : Option Int :=
  (checkDT s.data).bind parseZone

/-! ## Offset formatting (hamnut `unmarshalResponse` body) -/

/-- The Go zero-padding step: values below ten are prefixed with a zero
digit before `Itoa`; used for both the hour and the minute part. -/
def pad2go (n : Nat) : String :=
  if n < 10 then "0" ++ toString n else toString n

/-- The offset-to-`±HH:MM` formatting block of
`hamnut.Service.unmarshalResponse` (sign, truncated hours, minutes mod
60). -/
def formatGoOffset (offsetSec : Int) : String :=
  let sign := if offsetSec < 0 then "-" else "+"
  let a := offsetSec.natAbs
  sign ++ pad2go (a / 3600) ++ ":" ++ pad2go ((a / 60) % 60)

/-- The complete time-offset resolution cascade of
`hamnut.Service.unmarshalResponse`: explicit `TimeOffset` field first, then
the parsed RFC-3339 zone of `LocalTime`, then the last six bytes of
`LocalTime`, else empty. -/
def resolveTimeOffset (timeOffset localTime : String) : String :=
  if timeOffset ≠ "" then timeOffset
  else if localTime ≠ "" then
    match goParseRFC3339 localTime with
    | some off => formatGoOffset off
    | none => if 6 ≤ localTime.length then lastChars 6 localTime else ""
  else ""

/-! ## JSON (hamnut) adapter

`types.Country` as populated by `hamnut.Service.unmarshalResponse` (`pfx`
stands for the Go field `Prefix`). -/

structure Country where
  name : String := ""
  pfx : String := ""
  ccode : String := ""
  continent : String := ""
  dxcc : String := ""
  cqZone : String := ""
  ituZone : String := ""
  timeOffset : String := ""
deriving DecidableEq

/-- Wire payload of the Hamnut prefix endpoint, with `Option` marking
field presence in the JSON document (`pfx` stands for the JSON key
`prefix`). -/
structure PrefixPayload where
  found : Option Bool := none
  countryName : Option String := none
  pfx : Option String := none
  countryCode : Option String := none
  continent : Option String := none
  primaryDXCCPrefix : Option String := none
  cqZone : Option Int := none
  ituZone : Option Int := none
  timeOffset : Option String := none
  localTime : Option String := none
deriving DecidableEq

/-- The decoded `PrefixLookupResponse` struct (its declaration lives
outside the provided sources; fields are those read by
`hamnut.Service.unmarshalResponse`). -/
structure PrefixLookupResponse where
  found : Bool
  countryName : String
  pfx : String
  countryCode : String
  continent : String
  primaryDXCCPrefix : String
  cqZone : Int
  ituZone : Int
  timeOffset : String
  localTime : String
deriving DecidableEq

/-- Mirrors `json.Unmarshal` into the typed struct: absent fields keep the
Go zero value (`false`, `""`, `0`). -/
def decodePayload (p : PrefixPayload) : PrefixLookupResponse :=
  { found := p.found.getD false
    countryName := p.countryName.getD ""
    pfx := p.pfx.getD ""
    countryCode := p.countryCode.getD ""
    continent := p.continent.getD ""
    primaryDXCCPrefix := p.primaryDXCCPrefix.getD ""
    cqZone := p.cqZone.getD 0
    ituZone := p.ituZone.getD 0
    timeOffset := p.timeOffset.getD ""
    localTime := p.localTime.getD "" }

/-- Post-decode part of `hamnut.Service.unmarshalResponse`: the `found`
check and the field mapping into `types.Country`. -/
def unmarshalHamnut (r : PrefixLookupResponse) : Except SMError Country :=
  if r.found = false then
    .error { op := "hamnut.Service.unmarshalResponse",
             msg := "prefix not found by Hamnut (found=false)", nf := true }
  else
    .ok { name := r.countryName
          pfx := r.pfx
          ccode := r.countryCode
          continent := r.continent
          dxcc := r.primaryDXCCPrefix
          cqZone := if r.cqZone ≠ 0 then toString r.cqZone else ""
          ituZone := if r.ituZone ≠ 0 then toString r.ituZone else ""
          timeOffset := resolveTimeOffset r.timeOffset r.localTime }

/-- Response classification of `hamnut.Service.LookupWithContext` after
`client.Do` returns: 404 first, then the non-2xx band, then body read,
decode, and `unmarshalResponse` (decode failures and `found=false` are
wrapped by the caller). -/
def hamnutHandleResponse (rep : HttpReply PrefixPayload) : Except SMError Country :=
  match rep with
  | .transportFailure _ =>
    .error { op := "hamnut.Service.LookupWithContext",
             msg := "Failed to perform HTTP GET request", nf := false }
  | .reply status body =>
    if status = 404 then
      .error { op := "hamnut.Service.LookupWithContext",
               msg := "Prefix not found by Hamnut", nf := true }
    else if status < 200 ∨ 300 ≤ status then
      .error { op := "hamnut.Service.LookupWithContext",
               msg := "Service returned unexpected status " ++ toString status ++ ": " ++ body.rawOf,
               nf := false }
    else
      match body with
      | .readErr _ =>
        .error { op := "hamnut.Service.LookupWithContext",
                 msg := "Failed to read response body", nf := false }
      | .malformed _ =>
        .error (wrapErr "hamnut.Service.LookupWithContext" "Failed to unmarshal response body"
          { op := "hamnut.Service.unmarshalResponse", msg := "decoding Hamnut response", nf := false })
      | .ok _ p =>
        match unmarshalHamnut (decodePayload p) with
        | .error e =>
          .error (wrapErr "hamnut.Service.LookupWithContext" "Failed to unmarshal response body" e)
        | .ok c => .ok c

/-- Result of calling `LookupServiceConfig` on the config collaborator. -/
inductive CfgFetch
  | fail (msg : String)
  | got (cfg : LookupConfig)
deriving DecidableEq

/-- State of a `hamnut.Service` instance: collaborator presence, the
config snapshot, client presence, the `atomic.Bool` initialized flag and
the consumed-`sync.Once` flag.  `cfgService = none` models a nil
`ConfigService`; `some r` models a non-nil one whose
`LookupServiceConfig` call yields `r`. -/
structure HamnutState where
  hasLogger : Bool
  cfgService : Option CfgFetch
  config : Option LookupConfig
  hasClient : Bool
  flagInit : Bool
  onceDone : Bool
deriving DecidableEq

/-- Mirrors `hamnut.Service.validateConfig` including its in-place
trimming of `URL` and `UserAgent`; returns the mutated config and the
validation error, if any. -/
def validateCfgHamnut (cfg : LookupConfig) : LookupConfig × Option SMError :=
  if cfg.enabled = false then (cfg, none)
  else
    let cfg1 := { cfg with url := cfg.url.trimGo }
    if cfg1.url = "" then
      (cfg1, some { op := "hamnut.Service.Initialize",
                    msg := "lookup service URL cannot be empty", nf := false })
    else if urlSchemeHostBad cfg1.url then
      (cfg1, some { op := "hamnut.Service.Initialize",
                    msg := "lookup service URL is invalid", nf := false })
    else
      let cfg2 := { cfg1 with userAgent := cfg1.userAgent.trimGo }
      if cfg2.userAgent = "" then
        (cfg2, some { op := "hamnut.Service.Initialize",
                      msg := "lookup service user agent cannot be empty", nf := false })
      else if cfg2.httpTimeoutSec ≤ 0 then
        (cfg2, some { op := "hamnut.Service.Initialize",
                      msg := "lookup service timeout must be greater than zero", nf := false })
      else (cfg2, none)

/-- Tail of the hamnut `initOnce.Do` body once a config is resolved:
validation, conditional client construction, and the ready-flag store. -/
def initAfterCfgHamnut (s : HamnutState) (cfg : LookupConfig) : HamnutState × Option SMError :=
  let vc := validateCfgHamnut cfg
  let s1 := { s with config := some vc.1 }
  match vc.2 with
  | some e => (s1, some e)
  | none =>
    let s2 :=
      if s1.hasClient = false then
        if vc.1.enabled = true then { s1 with hasClient := true } else s1
      else s1
    ({ s2 with flagInit := true }, none)

/-- The closure passed to `initOnce.Do` in `hamnut.Service.Initialize`
(entering it consumes the once gate). -/
def initBodyHamnut (s : HamnutState) : HamnutState × Option SMError :=
  let s0 := { s with onceDone := true }
  if s0.hasLogger = false then
    (s0, some { op := "hamnut.Service.Initialize",
                msg := "logger service has not been set/injected", nf := false })
  else
    match s0.config with
    | some cfg => initAfterCfgHamnut s0 cfg
    | none =>
      match s0.cfgService with
      | none =>
        (s0, some { op := "hamnut.Service.Initialize",
                    msg := "application config has not been set/injected", nf := false })
      | some (.fail m) =>
        (s0, some { op := "hamnut.Service.Initialize",
                    msg := "getting lookup service config", nf := false, carried := [m] })
      | some (.got cfg) => initAfterCfgHamnut { s0 with config := some cfg } cfg

/-- `hamnut.Service.Initialize`: fast path on the atomic flag, then the
`sync.Once` gate around the setup body. -/
def initHamnut (s : HamnutState) : HamnutState × Option SMError :=
  if s.flagInit = true then (s, none)
  else if s.onceDone = true then (s, none)
  else initBodyHamnut s

/-- Whether a call to `Initialize` in state `s` executes the setup body. -/
def hamnutRuns (s : HamnutState) : Bool :=
  !s.flagInit && !s.onceDone

/-- `hamnut.Service.LookupWithContext` up to the outbound request: nil-ctx
replacement, initialized-flag check, config check, trim, disabled
short-circuit, client check, empty-callsign check, base-URL parse. -/
def hamnutLookupCtx (s : HamnutState) (ctx : Option GoContext) (callsign : String) :
    LookupStep PrefixPayload Country :=
  let ctx := ctx.getD .background
  if s.flagInit = false then
    .errStop { op := "hamnut.Service.LookupWithContext",
               msg := "service is not initialized", nf := false }
  else
    match s.config with
    | none =>
      .errStop { op := "hamnut.Service.LookupWithContext",
                 msg := "service config is not set", nf := false }
    | some cfg =>
      let cs := callsign.trimGo
      if cfg.enabled = false then .pass { name := cs }
      else if s.hasClient = false then
        .errStop { op := "hamnut.Service.LookupWithContext",
                   msg := "http client is not configured", nf := false }
      else if cs = "" then
        .errStop { op := "hamnut.Service.LookupWithContext",
                   msg := "callsign cannot be empty", nf := false }
      else
        match goUrlParse cfg.url with
        | none =>
          .errStop { op := "hamnut.Service.LookupWithContext",
                     msg := "invalid Hamnut base URL", nf := false }
        | some _ => .request ctx hamnutHandleResponse

/-- `hamnut.Service.Lookup`: delegates to `LookupWithContext` with
`context.Background()`. -/
def hamnutLookup (s : HamnutState) (callsign : String) : LookupStep PrefixPayload Country :=
  hamnutLookupCtx s (some .background) callsign

/-! ## XML (qrz) adapter

Decoded XML envelope (`qrz.Database`), restricted to the fields read by
`qrz.Service.requestAndSetSessionKey` and `qrz.Service.unmarshalResponse`;
field names follow the Go structs. -/

structure Callsign where
  Call : String := ""
  Dxcc : String := ""
  Fname : String := ""
  Name : String := ""
  Addr1 : String := ""
  Addr2 : String := ""
  State : String := ""
  Zip : String := ""
  Country : String := ""
  Lat : String := ""
  Lon : String := ""
  Grid : String := ""
  Email : String := ""
  URL : String := ""
  PCall : String := ""
  Cqzone : String := ""
  Ituzone : String := ""
  Attn : String := ""
  Nickname : String := ""
  NameFmt : String := ""
deriving DecidableEq

structure Session where
  Key : String := ""
  Error : String := ""
deriving DecidableEq

structure Database where
  Callsign : Callsign := {}
  Session : Session := {}
deriving DecidableEq

/-- `types.ContactedStation` as populated by
`qrz.Service.unmarshalResponse`. -/
structure ContactedStation where
  Call : String := ""
  Name : String := ""
  Address : String := ""
  QTH : String := ""
  Country : String := ""
  Gridsquare : String := ""
  CQZ : String := ""
  ITUZ : String := ""
  DXCC : String := ""
  Email : String := ""
  EqCall : String := ""
  Web : String := ""
  Lat : String := ""
  Lon : String := ""
  ContactedOp : String := ""
deriving DecidableEq

/-- The local `joinParts` closure of `qrz.Service.unmarshalResponse`: trim
every part, drop the empty ones, join with `", "`. -/
def joinParts (parts : List String) : String :=
  String.intercalate ", " ((parts.map String.trimGo).filter (fun p => p ≠ ""))

/-- The local `buildName` closure of `qrz.Service.unmarshalResponse`:
`name_fmt` first, else first/last name joined by a space, else the
nickname. -/
def buildName (c : Callsign) : String :=
  if c.NameFmt.trimGo ≠ "" then c.NameFmt.trimGo
  else
    let pieces :=
      (if c.Fname.trimGo ≠ "" then [c.Fname.trimGo] else []) ++
      (if c.Name.trimGo ≠ "" then [c.Name.trimGo] else [])
    if pieces ≠ [] then String.intercalate " " pieces
    else c.Nickname.trimGo

/-- Post-decode part of `qrz.Service.unmarshalResponse`: session-error
classification (trim, then case-insensitive `"not found"` detection),
missing-callsign detection, and the field-composition heuristics. -/
def unmarshalQrz (db : Database) : Except SMError ContactedStation :=
  let sessionErr := db.Session.Error.trimGo
  if sessionErr ≠ "" then
    .error { op := "qrz.Service.unmarshalResponse", msg := sessionErr,
             nf := goContains sessionErr.toLowerGo "not found" }
  else
    let cs := db.Callsign
    let call := cs.Call.trimGo.toUpperGo
    if call = "" then
      .error { op := "qrz.Service.unmarshalResponse",
               msg := "callsign not present in QRZ response", nf := true }
    else
      .ok { Call := call
            Name := buildName cs
            Address := joinParts [cs.Addr1, joinParts [cs.Addr2, cs.State], cs.Zip, cs.Country]
            QTH := joinParts [cs.Addr2, cs.State]
            Country := cs.Country.trimGo
            Gridsquare := cs.Grid.trimGo.toUpperGo
            CQZ := cs.Cqzone.trimGo
            ITUZ := cs.Ituzone.trimGo
            DXCC := cs.Dxcc.trimGo
            Email := cs.Email.trimGo
            EqCall := cs.PCall.trimGo.toUpperGo
            Web := cs.URL.trimGo
            Lat := cs.Lat.trimGo
            Lon := cs.Lon.trimGo
            ContactedOp := cs.Attn.trimGo }

/-- Response handling of `qrz.Service.LookupWithContext` after `client.Do`
returns (for trimmed callsign `cs`): non-2xx band, body read, decode,
`unmarshalResponse`, and the conversion of a not-found error into a
success carrying only the callsign. -/
def qrzHandleResponse (cs : String) (rep : HttpReply Database) : Except SMError ContactedStation :=
  match rep with
  | .transportFailure _ =>
    .error { op := "qrz.service.LookupWithContext",
             msg := "Failed to perform HTTP GET request", nf := false }
  | .reply status body =>
    if status < 200 ∨ 300 ≤ status then
      .error { op := "qrz.service.LookupWithContext",
               msg := "Service returned unexpected status " ++ toString status ++ ": " ++ body.rawOf,
               nf := false }
    else
      match body with
      | .readErr _ =>
        .error { op := "qrz.service.LookupWithContext",
                 msg := "Failed to read response body", nf := false }
      | .malformed _ =>
        .error (wrapErr "qrz.service.LookupWithContext" "Failed to unmarshal response body"
          { op := "qrz.Service.unmarshalResponse", msg := "failed to unmarshal QRZ XML response",
            nf := false })
      | .ok _ db =>
        match unmarshalQrz db with
        | .error e =>
          if e.nf = true then .ok { Call := cs }
          else .error (wrapErr "qrz.service.LookupWithContext" "Failed to unmarshal response body" e)
        | .ok st => .ok st

/-- State of a `qrz.Service` instance (the hamnut fields plus the cached
session key). -/
structure QrzState where
  hasLogger : Bool
  cfgService : Option CfgFetch
  config : Option LookupConfig
  hasClient : Bool
  flagInit : Bool
  onceDone : Bool
  sessionKey : String
deriving DecidableEq

/-- The HTTP exchange of the session-acquisition phase, supplied
externally. -/
abbrev QrzReply := HttpReply Database

/-- Mirrors `qrz.Service.validateConfig` (no disabled short-circuit; the
timeout field checked is `HttpTimeout`), including its in-place trimming. -/
def validateCfgQrz (cfg : LookupConfig) : LookupConfig × Option SMError :=
  let cfg1 := { cfg with url := cfg.url.trimGo }
  if cfg1.url = "" then
    (cfg1, some { op := "qrz.Service.Initialize",
                  msg := "lookup service URL cannot be empty", nf := false })
  else if urlSchemeHostBad cfg1.url then
    (cfg1, some { op := "qrz.Service.Initialize",
                  msg := "lookup service URL is invalid", nf := false })
  else
    let cfg2 := { cfg1 with userAgent := cfg1.userAgent.trimGo }
    if cfg2.userAgent = "" then
      (cfg2, some { op := "qrz.Service.Initialize",
                    msg := "lookup service user agent cannot be empty", nf := false })
    else if cfg2.httpTimeout ≤ 0 then
      (cfg2, some { op := "qrz.Service.Initialize",
                    msg := "lookup service timeout must be greater than zero", nf := false })
    else (cfg2, none)

/-- Classification of the decoded session envelope inside
`qrz.Service.requestAndSetSessionKey` (note: the session error is used
untrimmed here). -/
def classifySessionBody (db : Database) : Except SMError String :=
  if db.Session.Error ≠ "" then
    .error { op := "qrz.Service.fetchAndSetSessionKey",
             msg := "QRZ.com returned error: " ++ db.Session.Error, nf := false }
  else if db.Session.Key = "" then
    .error { op := "qrz.Service.fetchAndSetSessionKey",
             msg := "QRZ.com returned missing session key", nf := false }
  else .ok db.Session.Key

/-- `qrz.Service.requestAndSetSessionKey` over the externally supplied
HTTP exchange: URL parse, transport, status band, body read, decode, and
the session classification.  Returns the session key to cache. -/
def sessionKeyFromReply (cfg : LookupConfig) (rep : QrzReply) : Except SMError String :=
  match goUrlParse cfg.url with
  | none =>
    .error { op := "qrz.Service.fetchAndSetSessionKey",
             msg := "invalid QRZ base URL", nf := false }
  | some _ =>
    match rep with
    | .transportFailure _ =>
      .error { op := "qrz.Service.fetchAndSetSessionKey",
               msg := "Failed to perform HTTP GET request", nf := false }
    | .reply status body =>
      if status < 200 ∨ 300 ≤ status then
        .error { op := "qrz.Service.fetchAndSetSessionKey",
                 msg := "QRZ.com returned unexpected status " ++ toString status ++ ": " ++ body.rawOf,
                 nf := false }
      else
        match body with
        | .readErr _ =>
          .error { op := "qrz.Service.fetchAndSetSessionKey",
                   msg := "Failed to read response body", nf := false }
        | .malformed _ =>
          .error { op := "qrz.Service.fetchAndSetSessionKey",
                   msg := "Failed to unmarshal XML", nf := false }
        | .ok _ db => classifySessionBody db

/-- Tail of the qrz `initOnce.Do` body once a config is resolved:
validation, conditional client construction, the session handshake with
its disable-on-failure behavior, and the ready-flag store. -/
def initAfterCfgQrz (s : QrzState) (cfg : LookupConfig) (rep : QrzReply) :
    QrzState × Option SMError :=
  let vc := validateCfgQrz cfg
  let s1 := { s with config := some vc.1 }
  match vc.2 with
  | some e => (s1, some e)
  | none =>
    if s1.hasClient = false then
      if vc.1.enabled = true then
        let s2 := { s1 with hasClient := true }
        match sessionKeyFromReply vc.1 rep with
        | .error e => ({ s2 with config := some { vc.1 with enabled := false } }, some e)
        | .ok key => ({ s2 with sessionKey := key, flagInit := true }, none)
      else ({ s1 with flagInit := true }, none)
    else ({ s1 with flagInit := true }, none)

/-- The closure passed to `initOnce.Do` in `qrz.Service.Initialize`. -/
def initBodyQrz (s : QrzState) (rep : QrzReply) : QrzState × Option SMError :=
  let s0 := { s with onceDone := true }
  if s0.hasLogger = false then
    (s0, some { op := "qrz.Service.Initialize",
                msg := "logger service has not been set/injected", nf := false })
  else
    match s0.config with
    | some cfg => initAfterCfgQrz s0 cfg rep
    | none =>
      match s0.cfgService with
      | none =>
        (s0, some { op := "qrz.Service.Initialize",
                    msg := "application config has not been set/injected", nf := false })
      | some (.fail m) =>
        (s0, some { op := "qrz.Service.Initialize",
                    msg := "getting lookup service config", nf := false, carried := [m] })
      | some (.got cfg) => initAfterCfgQrz { s0 with config := some cfg } cfg rep

/-- `qrz.Service.Initialize`: fast path on the atomic flag, then the
`sync.Once` gate around the setup body. -/
def initQrz (s : QrzState) (rep : QrzReply) : QrzState × Option SMError :=
  if s.flagInit = true then (s, none)
  else if s.onceDone = true then (s, none)
  else initBodyQrz s rep

/-- Whether a call to `Initialize` in state `s` executes the setup body. -/
def qrzRuns (s : QrzState) : Bool :=
  !s.flagInit && !s.onceDone

/-- `qrz.Service.LookupWithContext` up to the outbound request: nil-ctx
replacement, initialized-flag check, config check, trim, disabled
short-circuit, client check, base-URL parse.  There is no empty-callsign
check in this adapter. -/
def qrzLookupCtx (s : QrzState) (ctx : Option GoContext) (callsign : String) :
    LookupStep Database ContactedStation :=
  let ctx := ctx.getD .background
  if s.flagInit = false then
    .errStop { op := "qrz.service.LookupWithContext",
               msg := "service is not initialized", nf := false }
  else
    match s.config with
    | none =>
      .errStop { op := "qrz.service.LookupWithContext",
                 msg := "service config is not set", nf := false }
    | some cfg =>
      let cs := callsign.trimGo
      if cfg.enabled = false then .pass { Call := cs }
      else if s.hasClient = false then
        .errStop { op := "qrz.service.LookupWithContext",
                   msg := "http client is not configured", nf := false }
      else
        match goUrlParse cfg.url with
        | none =>
          .errStop { op := "qrz.service.LookupWithContext",
                     msg := "invalid QRZ base URL", nf := false }
        | some _ => .request ctx (qrzHandleResponse cs)

/-- `qrz.Service.Lookup`: dereferences `s.Config.Enabled` before any
initialization check (a nil config panics), short-circuits a disabled
config to an empty station with nil error, and otherwise delegates to
`LookupWithContext` with `context.Background()`. -/
def qrzLookup (s : QrzState) (callsign : String) : LookupStep Database ContactedStation :=
  match s.config with
  | none => .panicked "runtime error: invalid memory address or nil pointer dereference"
  | some cfg =>
    if cfg.enabled = false then .pass {}
    else qrzLookupCtx s (some .background) callsign

/-! ## Concrete fixtures -/

/-- A valid, enabled configuration (the shape used by the repo's tests). -/
def goodCfg : LookupConfig :=
  { enabled := true, url := "http://example.com", userAgent := "test",
    httpTimeoutSec := 5, httpTimeout := 5, username := "u", password := "p" }

/-- The same configuration, disabled. -/
def disabledCfg : LookupConfig := { goodCfg with enabled := false }

/-- A zero-value `hamnut.Service`. -/
def hamnutZero : HamnutState :=
  { hasLogger := false, cfgService := none, config := none,
    hasClient := false, flagInit := false, onceDone := false }

/-- A zero-value `qrz.Service`. -/
def qrzZero : QrzState :=
  { hasLogger := false, cfgService := none, config := none,
    hasClient := false, flagInit := false, onceDone := false, sessionKey := "" }

/-- A hamnut instance after a successful enabled initialization. -/
def readyHamnut : HamnutState :=
  { hasLogger := true, cfgService := none, config := some goodCfg,
    hasClient := true, flagInit := true, onceDone := true }

/-- A qrz instance after a successful enabled initialization. -/
def readyQrz : QrzState :=
  { hasLogger := true, cfgService := none, config := some goodCfg,
    hasClient := true, flagInit := true, onceDone := true, sessionKey := "sess" }

/-- A qrz instance initialized with a disabled configuration. -/
def disabledQrz : QrzState := { readyQrz with config := some disabledCfg }

/-- The `pass` payload of a lookup step, when it is one. -/
def passValue : LookupStep π α → Option α
  | .pass v => some v
  | _ => none

/-! ## Claims -/

/-- C2: on a zero-value XML adapter (nil `Config`, `Initialize` never run),
`Lookup` does not return a `NotInitializedError`: it dereferences the nil
config and panics, contradicting the claim that `Lookup` before
`Initialize` always fails with `NotInitializedError` and never panics. -/
theorem c2_qrz_lookup_uninit_panics :
    qrzLookup qrzZero "AA7BQ" =
      .panicked "runtime error: invalid memory address or nil pointer dereference" := rfl

/-- C3: on an initialized, enabled XML adapter, a whitespace-only
identifier does not produce an `InvalidArgumentError` — the adapter
proceeds to perform the outbound HTTP request (with an empty `callsign`
parameter); the JSON adapter, in contrast, stops with the
empty-callsign error before any request. -/
theorem c3_empty_callsign_behavior :
    (qrzLookupCtx readyQrz (some .background) "   ").isRequest = true
    ∧ hamnutLookupCtx readyHamnut (some .background) "   " =
        .errStop { op := "hamnut.Service.LookupWithContext",
                   msg := "callsign cannot be empty", nf := false }
    ∧ (hamnutLookupCtx readyHamnut (some .background) "   ").isRequest = false := by
  refine ⟨by decide, rfl, by decide⟩

/-- C4 counterexample: on an XML adapter holding a disabled config,
`Lookup` returns an empty record while `LookupWithContext` with a
background context returns a record carrying the trimmed callsign, so the
two calls are not equivalent as the claim states. -/
theorem c4_cex_qrz_disabled :
    qrzLookup disabledQrz "K1" ≠ qrzLookupCtx disabledQrz (some .background) "K1" := by
  intro h
  exact absurd (congrArg passValue h) (by decide)

/-- C4 (amended): the JSON adapter's `Lookup` is exactly
`LookupWithContext` with a background context in every state; the XML
adapter's `Lookup` agrees with it whenever the config is present and
enabled (when the config is absent `Lookup` panics, and when it is
disabled `Lookup` returns an empty record instead of one carrying the
callsign). -/
theorem c4_lookup_delegates :
    (∀ (s : HamnutState) (cs : String),
      hamnutLookup s cs = hamnutLookupCtx s (some .background) cs)
    ∧ (∀ (s : QrzState) (cfg : LookupConfig) (cs : String),
        s.config = some cfg → cfg.enabled = true →
        qrzLookup s cs = qrzLookupCtx s (some .background) cs) := by
  refine ⟨fun s cs => rfl, fun s cfg cs hc he => ?_⟩
  simp [qrzLookup, hc, he]

/-- C4 witness: the amended equivalence at a concrete enabled instance. -/
theorem c4_lookup_delegates_witness :
    readyQrz.config = some goodCfg ∧ goodCfg.enabled = true ∧
    qrzLookup readyQrz "K1" = qrzLookupCtx readyQrz (some .background) "K1" :=
  ⟨rfl, rfl, c4_lookup_delegates.2 readyQrz goodCfg "K1" rfl rfl⟩

/-- C7: the JSON adapter's status classification — HTTP 404 is a
not-found error; any other status outside `[200,300)` is an upstream error
whose message carries the numeric status and the body text; a 2xx reply
whose payload has `found=false` is a not-found error rather than a decode
success. -/
theorem c7_hamnut_status_classification :
    ∀ (status : Nat) (body : BodyOutcome PrefixPayload) (raw : String) (p : PrefixPayload),
      (hamnutHandleResponse (.reply 404 body) =
        .error { op := "hamnut.Service.LookupWithContext",
                 msg := "Prefix not found by Hamnut", nf := true })
      ∧ (status ≠ 404 → status < 200 ∨ 300 ≤ status →
          hamnutHandleResponse (.reply status body) =
            .error { op := "hamnut.Service.LookupWithContext",
                     msg := "Service returned unexpected status " ++ toString status ++ ": " ++
                       body.rawOf,
                     nf := false })
      ∧ (200 ≤ status → status < 300 → p.found = some false →
          hamnutHandleResponse (.reply status (.ok raw p)) =
            .error (wrapErr "hamnut.Service.LookupWithContext" "Failed to unmarshal response body"
              { op := "hamnut.Service.unmarshalResponse",
                msg := "prefix not found by Hamnut (found=false)", nf := true })) := by
  intro status body raw p
  refine ⟨rfl, ?_, ?_⟩
  · intro h1 h2
    simp only [hamnutHandleResponse]
    rw [if_neg h1, if_pos h2]
  · intro h1 h2 hf
    have hne : ¬ (status = 404) := by omega
    have hin : ¬ (status < 200 ∨ 300 ≤ status) := by omega
    simp only [hamnutHandleResponse]
    rw [if_neg hne, if_neg hin]
    simp [unmarshalHamnut, decodePayload, hf]

/-- A 2xx payload that reports `found=false` alongside country data. -/
def payloadFoundFalse : PrefixPayload :=
  { found := some false, countryName := some "TestLand" }

/-- C7 witness: the classification at concrete statuses 500 and 200. -/
theorem c7_hamnut_status_witness :
    (500 ≠ 404) ∧ (500 < 200 ∨ 300 ≤ 500) ∧ (200 ≤ 200 ∧ 200 < 300) ∧
    hamnutHandleResponse (.reply 500 (.malformed "oops")) =
      .error { op := "hamnut.Service.LookupWithContext",
               msg := "Service returned unexpected status " ++ toString 500 ++ ": " ++
                 (BodyOutcome.malformed "oops" : BodyOutcome PrefixPayload).rawOf,
               nf := false }
    ∧ hamnutHandleResponse (.reply 200 (.ok "" payloadFoundFalse)) =
      .error (wrapErr "hamnut.Service.LookupWithContext" "Failed to unmarshal response body"
        { op := "hamnut.Service.unmarshalResponse",
          msg := "prefix not found by Hamnut (found=false)", nf := true }) :=
  ⟨by decide, by decide, by decide,
   (c7_hamnut_status_classification 500 (.malformed "oops") "" payloadFoundFalse).2.1
     (by decide) (by decide),
   (c7_hamnut_status_classification 200 (.ok "" payloadFoundFalse) "" payloadFoundFalse).2.2
     (by decide) (by decide) rfl⟩

/-- C10: the JSON adapter requires an explicit `found=true` — a payload
whose `found` field is absent decodes to the `false` default and is
classified not-found regardless of the country data present, and any
successful decode implies the payload carried `found=true`. -/
theorem c10_found_required :
    ∀ p : PrefixPayload,
      (p.found = none →
        unmarshalHamnut (decodePayload p) =
          .error { op := "hamnut.Service.unmarshalResponse",
                   msg := "prefix not found by Hamnut (found=false)", nf := true })
      ∧ (∀ c, unmarshalHamnut (decodePayload p) = .ok c → p.found = some true) := by
  intro p
  constructor
  · intro h
    simp [unmarshalHamnut, decodePayload, h]
  · intro c h
    rcases hp : p.found with _ | b
    · simp [unmarshalHamnut, decodePayload, hp] at h
    · cases b
      · simp [unmarshalHamnut, decodePayload, hp] at h
      · rfl

/-- A syntactically valid payload with complete country data but no
`found` field. -/
def payloadNoFound : PrefixPayload :=
  { found := none, countryName := some "United States", pfx := some "K",
    countryCode := some "US", continent := some "NA", primaryDXCCPrefix := some "291",
    cqZone := some 5, ituZone := some 8, timeOffset := some "-05:00" }

/-- C10 witness: the not-found classification at the concrete payload with
full country data and no `found` field. -/
theorem c10_found_required_witness :
    payloadNoFound.found = none ∧
    unmarshalHamnut (decodePayload payloadNoFound) =
      .error { op := "hamnut.Service.unmarshalResponse",
               msg := "prefix not found by Hamnut (found=false)", nf := true } :=
  ⟨rfl, (c10_found_required payloadNoFound).1 rfl⟩

/-! ## Initialization lifecycle (C1) -/

/-- Running the tail of the hamnut init body never touches the once
flag. -/
theorem initAfterCfgHamnut_onceDone (s : HamnutState) (cfg : LookupConfig) :
    ((initAfterCfgHamnut s cfg).1).onceDone = s.onceDone := by
  unfold initAfterCfgHamnut
  dsimp only
  split
  · rfl
  · split_ifs <;> rfl

/-- The hamnut init body always leaves the once gate consumed. -/
theorem initBodyHamnut_once (s : HamnutState) : ((initBodyHamnut s).1).onceDone = true := by
  unfold initBodyHamnut
  dsimp only
  split
  · rfl
  · split
    · rw [initAfterCfgHamnut_onceDone]
    · split
      · rfl
      · rfl
      · rw [initAfterCfgHamnut_onceDone]

/-- Running the tail of the qrz init body never touches the once flag. -/
theorem initAfterCfgQrz_onceDone (s : QrzState) (cfg : LookupConfig) (rep : QrzReply) :
    ((initAfterCfgQrz s cfg rep).1).onceDone = s.onceDone := by
  unfold initAfterCfgQrz
  dsimp only
  split
  · rfl
  · split_ifs
    · split <;> rfl
    · rfl
    · rfl

/-- The qrz init body always leaves the once gate consumed. -/
theorem initBodyQrz_once (s : QrzState) (rep : QrzReply) :
    ((initBodyQrz s rep).1).onceDone = true := by
  unfold initBodyQrz
  dsimp only
  split
  · rfl
  · split
    · rw [initAfterCfgQrz_onceDone]
    · split
      · rfl
      · rfl
      · rw [initAfterCfgQrz_onceDone]

/-- C1 counterexample: on a zero-value JSON adapter the first
`Initialize` fails (missing logger) but the second call returns a nil
error anyway — the once gate is consumed and the failure is not replayed —
so "the second call returns nil iff the first succeeded" is false. -/
theorem c1_cex_second_call_nil_after_failure :
    (initHamnut hamnutZero).2 ≠ none ∧ (initHamnut ((initHamnut hamnutZero).1)).2 = none := by
  constructor
  · decide
  · decide


/-- C1 (amended): for both adapters, a second sequential `Initialize`
leaves the state unchanged and always returns a nil error (also after a
failed first call, since the consumed once gate skips the body and the
stored failure is not replayed); the setup body runs at most once — once
it has run, no later call runs it again. -/
theorem c1_init_idempotent_once :
    ∀ (s : HamnutState) (t : QrzState) (r1 r2 : QrzReply),
      (initHamnut ((initHamnut s).1) = ((initHamnut s).1, none))
      ∧ (hamnutRuns s = true → hamnutRuns (initHamnut s).1 = false)
      ∧ (initQrz ((initQrz t r1).1) r2 = ((initQrz t r1).1, none))
      ∧ (qrzRuns t = true → qrzRuns (initQrz t r1).1 = false) := by
  intro s t r1 r2
  have hsecH : ∀ v : HamnutState, v.onceDone = true → initHamnut v = (v, none) := by
    intro v hv
    unfold initHamnut
    by_cases h1 : v.flagInit = true
    · rw [if_pos h1]
    · rw [if_neg h1, if_pos hv]
  have hsecQ : ∀ (v : QrzState) (r : QrzReply), v.onceDone = true → initQrz v r = (v, none) := by
    intro v r hv
    unfold initQrz
    by_cases h1 : v.flagInit = true
    · rw [if_pos h1]
    · rw [if_neg h1, if_pos hv]
  have hH : initHamnut ((initHamnut s).1) = ((initHamnut s).1, none) := by
    by_cases hf : s.flagInit = true
    · have e1 : initHamnut s = (s, none) := by unfold initHamnut; rw [if_pos hf]
      rw [e1]; exact e1
    · by_cases hd : s.onceDone = true
      · have e1 : initHamnut s = (s, none) := by
          unfold initHamnut; rw [if_neg hf, if_pos hd]
        rw [e1]; exact e1
      · have e1 : initHamnut s = initBodyHamnut s := by
          unfold initHamnut; rw [if_neg hf, if_neg hd]
        rw [e1]
        exact hsecH _ (initBodyHamnut_once s)
  have hQ : initQrz ((initQrz t r1).1) r2 = ((initQrz t r1).1, none) := by
    by_cases hf : t.flagInit = true
    · have e1 : initQrz t r1 = (t, none) := by unfold initQrz; rw [if_pos hf]
      rw [e1]
      show initQrz t r2 = (t, none)
      unfold initQrz; rw [if_pos hf]
    · by_cases hd : t.onceDone = true
      · have e1 : initQrz t r1 = (t, none) := by
          unfold initQrz; rw [if_neg hf, if_pos hd]
        rw [e1]
        show initQrz t r2 = (t, none)
        unfold initQrz; rw [if_neg hf, if_pos hd]
      · have e1 : initQrz t r1 = initBodyQrz t r1 := by
          unfold initQrz; rw [if_neg hf, if_neg hd]
        rw [e1]
        exact hsecQ _ r2 (initBodyQrz_once t r1)
  refine ⟨hH, ?_, hQ, ?_⟩
  · intro hr
    have hf : s.flagInit = false := by
      simp [hamnutRuns] at hr; exact hr.1
    have hd : s.onceDone = false := by
      simp [hamnutRuns] at hr; exact hr.2
    have h1 : (initHamnut s).1 = (initBodyHamnut s).1 := by
      unfold initHamnut
      rw [if_neg (by simp [hf]), if_neg (by simp [hd])]
    simp [hamnutRuns, h1, initBodyQrz_once, initBodyHamnut_once s]
  · intro hr
    have hf : t.flagInit = false := by
      simp [qrzRuns] at hr; exact hr.1
    have hd : t.onceDone = false := by
      simp [qrzRuns] at hr; exact hr.2
    have h1 : (initQrz t r1).1 = (initBodyQrz t r1).1 := by
      unfold initQrz
      rw [if_neg (by simp [hf]), if_neg (by simp [hd])]
    simp [qrzRuns, h1, initBodyQrz_once t r1]

/-- C1 witness: the amended lifecycle facts at concrete zero-value
instances. -/
theorem c1_init_idempotent_once_witness :
    hamnutRuns hamnutZero = true ∧ hamnutRuns (initHamnut hamnutZero).1 = false
    ∧ qrzRuns qrzZero = true
    ∧ qrzRuns (initQrz qrzZero (.transportFailure "down")).1 = false :=
  ⟨by decide,
   (c1_init_idempotent_once hamnutZero qrzZero (.transportFailure "down")
     (.transportFailure "down")).2.1 (by decide),
   by decide,
   (c1_init_idempotent_once hamnutZero qrzZero (.transportFailure "down")
     (.transportFailure "down")).2.2.2 (by decide)⟩

/-! ## XML lookup classification (C5) -/

/-- An envelope whose session error carries surrounding whitespace. -/
def dbPadded : Database := { Session := { Error := " Invalid session key " } }

/-- C5 counterexample: for a session error with surrounding whitespace
that lacks the `"not found"` marker, the produced error message is the
trimmed text, not the raw field verbatim as the claim states. -/
theorem c5_cex_session_error_trimmed :
    dbPadded.Session.Error = " Invalid session key " ∧
    unmarshalQrz dbPadded =
      .error { op := "qrz.Service.unmarshalResponse", msg := "Invalid session key", nf := false } ∧
    "Invalid session key" ≠ " Invalid session key " :=
  ⟨rfl, rfl, by decide⟩

/-- C5 (amended): the session error is trimmed before classification — a
trimmed-non-empty error containing `"not found"` case-insensitively makes
the top-level lookup succeed with a record carrying only the callsign; a
trimmed-non-empty error without the marker yields an upstream error
carrying the trimmed (not raw) message; no session error with an
absent/empty callsign element yields the internal not-found error with
message `"callsign not present in QRZ response"`. -/
theorem c5_session_error_classification :
    ∀ (db : Database) (cs raw : String),
      (db.Session.Error.trimGo ≠ "" →
        goContains db.Session.Error.trimGo.toLowerGo "not found" = true →
        qrzHandleResponse cs (.reply 200 (.ok raw db)) = .ok { Call := cs })
      ∧ (db.Session.Error.trimGo ≠ "" →
        goContains db.Session.Error.trimGo.toLowerGo "not found" = false →
        unmarshalQrz db =
          .error { op := "qrz.Service.unmarshalResponse",
                   msg := db.Session.Error.trimGo, nf := false }
        ∧ qrzHandleResponse cs (.reply 200 (.ok raw db)) =
            .error (wrapErr "qrz.service.LookupWithContext" "Failed to unmarshal response body"
              { op := "qrz.Service.unmarshalResponse",
                msg := db.Session.Error.trimGo, nf := false }))
      ∧ (db.Session.Error.trimGo = "" → db.Callsign.Call.trimGo = "" →
        unmarshalQrz db =
          .error { op := "qrz.Service.unmarshalResponse",
                   msg := "callsign not present in QRZ response", nf := true }) := by
  intro db cs raw
  refine ⟨?_, ?_, ?_⟩
  · intro h1 h2
    simp only [qrzHandleResponse]
    rw [if_neg (by omega)]
    simp only [unmarshalQrz]
    rw [if_pos h1, h2]
    rfl
  · intro h1 h2
    have hu : unmarshalQrz db =
        .error { op := "qrz.Service.unmarshalResponse",
                 msg := db.Session.Error.trimGo, nf := false } := by
      simp only [unmarshalQrz]
      rw [if_pos h1, h2]
    refine ⟨hu, ?_⟩
    simp only [qrzHandleResponse]
    rw [if_neg (by omega)]
    rw [hu]
    rfl
  · intro h1 h2
    have hup : db.Callsign.Call.trimGo.toUpperGo = "" := by
      rw [h2]; rfl
    simp only [unmarshalQrz]
    rw [if_neg (by simp [h1]), if_pos hup]

/-- The not-found envelope from the repo's own test data. -/
def dbNotFound : Database := { Session := { Error := "Callsign not found, try again" } }

/-- C5 witness: the amended classification at the repo's test inputs. -/
theorem c5_session_error_classification_witness :
    dbNotFound.Session.Error.trimGo = "Callsign not found, try again"
    ∧ goContains dbNotFound.Session.Error.trimGo.toLowerGo "not found" = true
    ∧ qrzHandleResponse "AA7BQ" (.reply 200 (.ok "" dbNotFound)) = .ok { Call := "AA7BQ" } :=
  ⟨by decide, by decide,
   (c5_session_error_classification dbNotFound "AA7BQ" "").1 (by decide) (by decide)⟩

/-! ## Time-offset resolution (C6) -/

/-- The sign factor has absolute value one. -/
theorem zoneSign_natAbs (sg : Char) : (zoneSign sg).natAbs = 1 := by
  unfold zoneSign; split <;> rfl

/-- The zone parser only produces offsets of magnitude at most
`23*3600 + 59*60`. -/
theorem parseZone_bound (l : List Char) (off : Int) (h : parseZone l = some off) :
    off.natAbs ≤ 86340 := by
  unfold parseZone at h
  split at h
  · cases h; decide
  · split_ifs at h with hc
    split at h
    all_goals try exact Option.noConfusion h
    rename_i hh mm heq1 heq2
    split_ifs at h with hb
    simp only [Bool.and_eq_true, decide_eq_true_eq] at hb
    injection h with h'
    subst h'
    rw [Int.natAbs_mul, zoneSign_natAbs, one_mul, Int.natAbs_ofNat]
    omega
  · exact Option.noConfusion h

/-- Parsed RFC-3339 offsets are bounded by `23:59`. -/
theorem goParseRFC3339_bound (s : String) (off : Int) (h : goParseRFC3339 s = some off) :
    off.natAbs ≤ 86340 := by
  unfold goParseRFC3339 at h
  cases hc : checkDT s.data with
  | none => rw [hc] at h; exact Option.noConfusion h
  | some l => rw [hc] at h; exact parseZone_bound l off h

/-- The Go padding yields two characters for any value below 100. -/
theorem pad2go_length : ∀ n, n < 100 → (pad2go n).length = 2 := by decide

/-- A bounded offset always formats into the six-character `±HH:MM`
shape. -/
theorem formatGoOffset_length (off : Int) (hb : off.natAbs ≤ 86340) :
    (formatGoOffset off).length = 6 := by
  have h1 : off.natAbs / 3600 < 100 := by omega
  have h2 : (off.natAbs / 60) % 60 < 100 := by omega
  have p1 := pad2go_length _ h1
  have p2 := pad2go_length _ h2
  unfold formatGoOffset
  by_cases hs : off < 0 <;>
    simp [hs, String.length_append, p1, p2] <;> decide

/-- C6: the time-offset cascade of the JSON adapter — an explicit offset
field wins; else a parsing local timestamp yields its zone offset in the
sign/zero-padded-hours/colon/zero-padded-minutes shape (always six
characters); else a string of length at least six contributes its last six
characters verbatim; else the offset is empty; the spec's concrete example
derives exactly `"+02:00"`; and no timestamp content makes the unmarshal
fail. -/
theorem c6_time_offset_resolution :
    (∀ toff lt : String, toff ≠ "" → resolveTimeOffset toff lt = toff)
    ∧ (∀ (lt : String) (off : Int), goParseRFC3339 lt = some off →
        resolveTimeOffset "" lt = formatGoOffset off
        ∧ formatGoOffset off =
            (if off < 0 then "-" else "+") ++ pad2go (off.natAbs / 3600) ++ ":" ++
              pad2go ((off.natAbs / 60) % 60)
        ∧ (resolveTimeOffset "" lt).length = 6)
    ∧ (∀ lt : String, goParseRFC3339 lt = none → 6 ≤ lt.length →
        resolveTimeOffset "" lt = lastChars 6 lt)
    ∧ (∀ lt : String, goParseRFC3339 lt = none → lt.length < 6 →
        resolveTimeOffset "" lt = "")
    ∧ resolveTimeOffset "" "2025-11-30T13:31:07+02:00" = "+02:00"
    ∧ (∀ r : PrefixLookupResponse, r.found = true → ∃ c, unmarshalHamnut r = Except.ok c) := by
  refine ⟨?_, ?_, ?_, ?_, by decide, ?_⟩
  · intro toff lt h
    unfold resolveTimeOffset
    rw [if_pos h]
  · intro lt off h
    have hne : lt ≠ "" := by
      intro e; subst e
      rw [show goParseRFC3339 "" = none from rfl] at h
      exact Option.noConfusion h
    have hres : resolveTimeOffset "" lt = formatGoOffset off := by
      unfold resolveTimeOffset
      rw [if_neg (by simp), if_pos hne, h]
    exact ⟨hres, rfl, by
      rw [hres]; exact formatGoOffset_length off (goParseRFC3339_bound lt off h)⟩
  · intro lt h h6
    have hne : lt ≠ "" := by
      intro e; subst e; exact absurd h6 (by decide)
    unfold resolveTimeOffset
    rw [if_neg (by simp), if_pos hne, h, if_pos h6]
  · intro lt h h6
    by_cases hne : lt = ""
    · subst hne; rfl
    · unfold resolveTimeOffset
      rw [if_neg (by simp), if_pos hne, h, if_neg (by omega)]
  · intro r hr
    refine ⟨{ name := r.countryName, pfx := r.pfx, ccode := r.countryCode,
              continent := r.continent, dxcc := r.primaryDXCCPrefix,
              cqZone := if r.cqZone ≠ 0 then toString r.cqZone else "",
              ituZone := if r.ituZone ≠ 0 then toString r.ituZone else "",
              timeOffset := resolveTimeOffset r.timeOffset r.localTime }, ?_⟩
    unfold unmarshalHamnut
    rw [if_neg (by simp [hr])]

/-- C6 witness: the cascade at the spec's concrete example. -/
theorem c6_time_offset_resolution_witness :
    goParseRFC3339 "2025-11-30T13:31:07+02:00" = some 7200
    ∧ resolveTimeOffset "" "2025-11-30T13:31:07+02:00" = formatGoOffset 7200
    ∧ (resolveTimeOffset "" "2025-11-30T13:31:07+02:00").length = 6 :=
  ⟨by decide,
   (c6_time_offset_resolution.2.1 "2025-11-30T13:31:07+02:00" 7200 (by decide)).1,
   (c6_time_offset_resolution.2.1 "2025-11-30T13:31:07+02:00" 7200 (by decide)).2.2⟩

/-! ## XML record composition (C8) -/

/-- Uppercasing cannot erase a string. -/
theorem toUpperGo_eq_empty {s : String} (he : s.toUpperGo = "") : s = "" := by
  have h1 : (s.toUpperGo).data = String.data "" := congrArg String.data he
  simp only [String.toUpperGo, List.map_eq_nil_iff] at h1
  exact String.ext h1

/-- The `buildName` closure computes exactly the spec's name cascade:
display name first, else the non-empty ones among first/last name joined
by a single space, else the nickname. -/
theorem buildName_spec (c : Callsign) :
    buildName c = (if c.NameFmt.trimGo ≠ "" then c.NameFmt.trimGo
      else if c.Fname.trimGo ≠ "" ∨ c.Name.trimGo ≠ "" then
        String.intercalate " "
          (List.filter (fun p => p ≠ "") [c.Fname.trimGo, c.Name.trimGo])
      else c.Nickname.trimGo) := by
  unfold buildName
  by_cases h1 : c.NameFmt.trimGo ≠ ""
  · rw [if_pos h1, if_pos h1]
  · rw [if_neg h1, if_neg h1]
    by_cases h2 : c.Fname.trimGo = "" <;> by_cases h3 : c.Name.trimGo = "" <;>
      simp [h2, h3]

/-- C8: for every decoded envelope without a session error and with a
non-empty callsign, the produced record composes `name` by the
display-name/first-last/nickname cascade, `address` by joining
address-line-1, the joined line-2/state pair, the postal code and the
country with `", "` while skipping empty parts, and uppercases the
trimmed `call`, `gridsquare` and equivalent-call fields. -/
theorem c8_xml_field_composition :
    ∀ db : Database,
      db.Session.Error.trimGo = "" →
      db.Callsign.Call.trimGo ≠ "" →
      ∃ st, unmarshalQrz db = Except.ok st
        ∧ st.Name = (if db.Callsign.NameFmt.trimGo ≠ "" then db.Callsign.NameFmt.trimGo
            else if db.Callsign.Fname.trimGo ≠ "" ∨ db.Callsign.Name.trimGo ≠ "" then
              String.intercalate " "
                (List.filter (fun p => p ≠ "")
                  [db.Callsign.Fname.trimGo, db.Callsign.Name.trimGo])
            else db.Callsign.Nickname.trimGo)
        ∧ st.Address = String.intercalate ", "
            (List.filter (fun p => p ≠ "")
              [db.Callsign.Addr1.trimGo,
               (String.intercalate ", " (List.filter (fun p => p ≠ "")
                  [db.Callsign.Addr2.trimGo, db.Callsign.State.trimGo])).trimGo,
               db.Callsign.Zip.trimGo, db.Callsign.Country.trimGo])
        ∧ st.Call = db.Callsign.Call.trimGo.toUpperGo
        ∧ st.Gridsquare = db.Callsign.Grid.trimGo.toUpperGo
        ∧ st.EqCall = db.Callsign.PCall.trimGo.toUpperGo := by
  intro db h1 h2
  have hup : db.Callsign.Call.trimGo.toUpperGo ≠ "" := fun he => h2 (toUpperGo_eq_empty he)
  have hu : unmarshalQrz db = Except.ok
      { Call := db.Callsign.Call.trimGo.toUpperGo
        Name := buildName db.Callsign
        Address := joinParts [db.Callsign.Addr1,
          joinParts [db.Callsign.Addr2, db.Callsign.State],
          db.Callsign.Zip, db.Callsign.Country]
        QTH := joinParts [db.Callsign.Addr2, db.Callsign.State]
        Country := db.Callsign.Country.trimGo
        Gridsquare := db.Callsign.Grid.trimGo.toUpperGo
        CQZ := db.Callsign.Cqzone.trimGo
        ITUZ := db.Callsign.Ituzone.trimGo
        DXCC := db.Callsign.Dxcc.trimGo
        Email := db.Callsign.Email.trimGo
        EqCall := db.Callsign.PCall.trimGo.toUpperGo
        Web := db.Callsign.URL.trimGo
        Lat := db.Callsign.Lat.trimGo
        Lon := db.Callsign.Lon.trimGo
        ContactedOp := db.Callsign.Attn.trimGo } := by
    simp only [unmarshalQrz]
    rw [if_neg (by simp [h1]), if_neg hup]
  exact ⟨_, hu, buildName_spec db.Callsign, by simp [joinParts], rfl, rfl, rfl⟩

/-- The successful envelope from the repo's own test data. -/
def dbSuccess : Database :=
  { Callsign :=
      { Call := "aa7bq", Fname := "FRED L", Name := "LLOYD",
        Addr1 := "8711 E PINNACLE PEAK RD 193", Addr2 := "SCOTTSDALE",
        State := "AZ", Zip := "85255", Country := "United States",
        Grid := "DM32af", Cqzone := "3", Ituzone := "2", Dxcc := "291",
        Email := "flloyd@qrz.com", PCall := "KJ6RK",
        URL := "https://www.qrz.com/db/aa7bq", Lat := "34.23456",
        Lon := "-112.34356", Attn := "c/o QRZ LLC",
        NameFmt := "FRED \x22The Boss\x22 LLOYD" },
    Session := {} }

/-- C8 witness: the composition at the repo's successful test envelope. -/
theorem c8_xml_field_composition_witness :
    dbSuccess.Session.Error.trimGo = "" ∧ dbSuccess.Callsign.Call.trimGo ≠ ""
    ∧ ∃ st, unmarshalQrz dbSuccess = Except.ok st ∧ st.Call = "AA7BQ" := by
  refine ⟨by decide, by decide, ?_⟩
  obtain ⟨st, hok, _, _, hcall, _, _⟩ :=
    c8_xml_field_composition dbSuccess (by decide) (by decide)
  exact ⟨st, hok, by rw [hcall]; decide⟩

/-! ## Session acquisition (C9) -/

/-- A freshly constructed qrz instance with an injected config. -/
def mkFreshQrz (cfg : LookupConfig) : QrzState :=
  { hasLogger := true, cfgService := none, config := some cfg,
    hasClient := false, flagInit := false, onceDone := false, sessionKey := "" }

/-- C9: the session-acquisition phase — a decoded envelope with a
non-empty session error fails with an error embedding that message; an
envelope without a session key fails reporting the missing key; on a
successful handshake `Initialize` caches the key on the instance and
marks it ready; and any acquisition failure flips the stored config to
`enabled=false` and is returned as the `Initialize` error (with the ready
flag left unset). -/
theorem c9_session_acquisition :
    ∀ (cfg : LookupConfig) (db : Database) (rep : QrzReply) (raw k : String) (e : SMError),
      (db.Session.Error ≠ "" →
        classifySessionBody db =
          .error { op := "qrz.Service.fetchAndSetSessionKey",
                   msg := "QRZ.com returned error: " ++ db.Session.Error, nf := false })
      ∧ (db.Session.Error = "" → db.Session.Key = "" →
        classifySessionBody db =
          .error { op := "qrz.Service.fetchAndSetSessionKey",
                   msg := "QRZ.com returned missing session key", nf := false })
      ∧ (validateCfgQrz cfg = (cfg, none) → cfg.enabled = true →
          (goUrlParse cfg.url).isSome = true →
          db.Session.Error = "" → db.Session.Key = k → k ≠ "" →
          initQrz (mkFreshQrz cfg) (.reply 200 (.ok raw db)) =
            ({ mkFreshQrz cfg with
                onceDone := true, hasClient := true,
                sessionKey := k, flagInit := true }, none))
      ∧ (validateCfgQrz cfg = (cfg, none) → cfg.enabled = true →
          sessionKeyFromReply cfg rep = .error e →
          initQrz (mkFreshQrz cfg) rep =
            ({ mkFreshQrz cfg with
                onceDone := true, hasClient := true,
                config := some { cfg with enabled := false } }, some e)) := by
  intro cfg db rep raw k e
  refine ⟨?_, ?_, ?_, ?_⟩
  · intro h1
    simp only [classifySessionBody]
    rw [if_pos h1]
  · intro h1 h2
    simp only [classifySessionBody]
    rw [if_neg (by simp [h1]), if_pos h2]
  · intro hv he hu hde hdk hk
    obtain ⟨u, hu'⟩ := Option.isSome_iff_exists.mp hu
    have hs : sessionKeyFromReply cfg (.reply 200 (.ok raw db)) = .ok k := by
      simp only [sessionKeyFromReply]
      rw [hu']
      rw [if_neg (by omega)]
      simp only [classifySessionBody]
      rw [if_neg (by simp [hde]), hdk, if_neg hk]
    simp only [initQrz, initBodyQrz, initAfterCfgQrz, mkFreshQrz]
    simp only [hv, hs]
    simp [he]
  · intro hv he hse
    simp only [initQrz, initBodyQrz, initAfterCfgQrz, mkFreshQrz]
    simp only [hv, hse]
    simp [he]

/-- A session envelope carrying a key and no error. -/
def dbSessionOk : Database := { Session := { Key := "sk", Error := "" } }

/-- C9 witness: a successful handshake at concrete inputs caches the
key. -/
theorem c9_session_acquisition_witness :
    validateCfgQrz goodCfg = (goodCfg, none) ∧ goodCfg.enabled = true
    ∧ (goUrlParse goodCfg.url).isSome = true
    ∧ initQrz (mkFreshQrz goodCfg) (.reply 200 (.ok "" dbSessionOk)) =
        ({ mkFreshQrz goodCfg with
            onceDone := true, hasClient := true,
            sessionKey := "sk", flagInit := true }, none) :=
  ⟨by decide, rfl, by decide,
   (c9_session_acquisition goodCfg dbSessionOk (.reply 200 (.ok "" dbSessionOk)) "" "sk"
     { op := "", msg := "", nf := false }).2.2.1
     (by decide) rfl (by decide) rfl rfl (by decide)⟩
